import Mathlib

/-! Galaxy Merger: the upload form of `src/PDFMERGER/src/App.jsx`.

A shallow embedding of the `App` component: its five `useState` cells, the
file input behind `fileInputRef`, and the interval timers it starts.  Every
event handler of the component is a pure function on `AppState`; the
asynchronous `handleUpload` is split at its single `await fetch(...)` into the
part that runs on the click and the part that runs when the request settles.

File sizes and counts are natural numbers.  In every state that satisfies the
limits of the form all sums stay far below `2 ^ 53`, so the arithmetic of
JavaScript numbers is exact there.
-/

namespace GalaxyMerger

/-! ## Data model -/

/-- A file picked by the user: the `name` and `size` fields of a browser `File`. -/
structure SelectedFile where
  name : String
  size : Nat
deriving DecidableEq, Repr

/-- The four values stored in `uploadStatus`. -/
inductive UploadStatus where
  | idle
  | uploading
  | completed
  | error
deriving DecidableEq, Repr

/-- The state of the component.  `files`, `uploadStatus`, `mergeProgress`,
`downloadUrl` and `errorMessage` are the `useState` cells of lines 6 to 10;
`fileInput` is `fileInputRef.current` (`none` while the ref is null, otherwise
the `value` of the input element); `intervals` holds the handles of the
`setInterval` timers that have not been cleared; `nextTimer` is the handle the
next `setInterval` call returns. -/
structure AppState where
  files : List SelectedFile
  uploadStatus : UploadStatus
  mergeProgress : Int
  downloadUrl : Option String
  errorMessage : String
  fileInput : Option String
  intervals : List Nat
  nextTimer : Nat
deriving DecidableEq, Repr

/-- The state after the first render: the initial values of the `useState`
calls, the file input mounted and empty, no timer running. -/
def initialState : AppState :=
  { files := []
    uploadStatus := .idle
    mergeProgress := 0
    downloadUrl := none
    errorMessage := ""
    fileInput := some ""
    intervals := []
    nextTimer := 0 }

/-- The constant `MAX_FILE_COUNT` of line 13. -/
def MAX_FILE_COUNT : Nat := 100

/-! ## File intake -/

/-- The message of lines 19 to 21, a template string around `MAX_FILE_COUNT`. -/
def countExceededMessage : String :=
  "Maximum file count exceeded. You can upload up to " ++ toString MAX_FILE_COUNT
    ++ " files at once."

/-- The message of lines 31 to 33, a template string around the file name. -/
def fileTooLargeMessage (name : String) : String :=
  "File \x27" ++ name ++ "\x27 exceeds the maximum size of 100MB"

/-- The message of lines 43 to 45. -/
def totalSizeMessage : String :=
  "Total size of all files exceeds the maximum allowed size of 250MB"

/-- The reduction `xs.reduce((total, file) => total + file.size, 0)` of lines 38
to 41 and of line 229. -/
def totalSize (xs : List SelectedFile) : Nat :=
  xs.foldl (fun total file => total + file.size) 0

/-- The handler `handleFileSelect` (lines 15 to 52); `selectedFiles` is
`Array.from(e.target.files)`. -/
def handleFileSelect (s : AppState) (selectedFiles : List SelectedFile) : AppState :=
  if s.files.length + selectedFiles.length > MAX_FILE_COUNT then
    { s with errorMessage := countExceededMessage, uploadStatus := .error }
  else
    let oversizedFiles := selectedFiles.filter (fun file => decide (file.size > 100 * 1024 * 1024))
    match oversizedFiles with
    | first :: _ =>
      { s with errorMessage := fileTooLargeMessage first.name, uploadStatus := .error }
    | [] =>
      if totalSize (s.files ++ selectedFiles) > 250 * 1024 * 1024 then
        { s with errorMessage := totalSizeMessage, uploadStatus := .error }
      else
        { s with files := s.files ++ selectedFiles, errorMessage := "" }

/-- The method `Array.prototype.filter` with a callback that also receives the
index: `filterWithIndex p xs i` filters `xs`, whose first element has index
`i`. -/
def filterWithIndex {α : Type} (p : α → Nat → Bool) : List α → Nat → List α
  | [], _ => []
  | x :: xs, i => if p x i then x :: filterWithIndex p xs (i + 1) else filterWithIndex p xs (i + 1)

/-- The handler `removeFile` (lines 125 to 128). -/
def removeFile (s : AppState) (index : Nat) : AppState :=
  { s with
    files := filterWithIndex (fun _ i => i != index) s.files 0
    errorMessage := "" }

/-- The handler `resetForm` (lines 130 to 138).  The write to the input happens
only when the ref is not null. -/
def resetForm (s : AppState) : AppState :=
  { s with
    files := []
    uploadStatus := .idle
    downloadUrl := none
    errorMessage := ""
    fileInput := s.fileInput.map (fun _ => "") }

/-! ## Upload -/

/-- What `await response.json()` yields on a failure response: the call rejects
(`unparsable`), the body is the JSON value `null`, or it is a JSON object whose
`error` and `message` members are strings when they are there (`none` stands
for a member that is missing, read as `undefined`). -/
inductive ErrorBody where
  | unparsable
  | null
  | object (error : Option String) (message : Option String)
deriving DecidableEq, Repr

/-- How the request of line 75 settles.  `threw`: `fetch` rejects and there is
no response.  `ok url`: a response with `response.ok` true; `url` is
`some u` when `response.blob()` resolves and `URL.createObjectURL` returns `u`,
and `none` when reading the body rejects.  `failed body`: a response with
`response.ok` false. -/
inductive FetchOutcome where
  | threw
  | ok (url : Option String)
  | failed (body : ErrorBody)
deriving DecidableEq, Repr

/-- The message of line 102. -/
def tooManyFilesMessage : String :=
  "Too many files uploaded. Please reduce the number of files and try again."

/-- The fallback of line 106. -/
def mergeErrorMessage : String := "Error occurred during merging"

/-- The message of line 112. -/
def mergeErrorRetryMessage : String := "Error occurred during merging. Please try again."

/-- The message of line 119. -/
def networkErrorMessage : String :=
  "Network error. Please check your connection and try again."

/-- The call `clearInterval(handle)`. -/
def clearInterval (s : AppState) (handle : Nat) : AppState :=
  { s with intervals := s.intervals.filter (fun h => h != handle) }

/-- The synchronous part of `handleUpload` for a non-empty `files` (lines 57 to
73): status, progress and message are set and the ticker is started.  The
result carries the handle that `setInterval` returned. -/
def startUpload (s : AppState) : AppState × Nat :=
  ({ s with
      uploadStatus := .uploading
      mergeProgress := 0
      errorMessage := ""
      intervals := s.nextTimer :: s.intervals
      nextTimer := s.nextTimer + 1 },
   s.nextTimer)

/-- One firing of the interval callback of lines 65 to 73 for the timer
`handle`. -/
def tick (s : AppState) (handle : Nat) : AppState :=
  if s.mergeProgress ≥ 100 then
    { clearInterval s handle with mergeProgress := 100 }
  else
    { s with mergeProgress := s.mergeProgress + 10 }

/-- The choice of message in the inner `try` of lines 94 to 114.  Reading a
member of `null` throws, which the inner `catch` turns into the message of line
112; `errorData.message || fallback` takes the fallback for a missing and for
an empty message. -/
def failureMessage : ErrorBody → String
  | .unparsable => mergeErrorRetryMessage
  | .null => mergeErrorRetryMessage
  | .object error message =>
    if error = some "UPLOAD_SIZE_EXCEEDED" ∨ error = some "FILE_COUNT_EXCEEDED" then
      tooManyFilesMessage
    else
      match message with
      | some m => if m = "" then mergeErrorMessage else m
      | none => mergeErrorMessage

/-- The continuation of `handleUpload` after `await fetch(...)` (lines 80 to
122), for the upload whose ticker is `handle`. -/
def settleUpload (s : AppState) (handle : Nat) : FetchOutcome → AppState
  | .threw =>
    { s with uploadStatus := .error, errorMessage := networkErrorMessage }
  | .ok (some url) =>
    { clearInterval s handle with
      mergeProgress := 100
      downloadUrl := some url
      uploadStatus := .completed
      files := []
      fileInput := s.fileInput.map (fun _ => "") }
  | .ok none =>
    { clearInterval s handle with
      mergeProgress := 100
      uploadStatus := .error
      errorMessage := networkErrorMessage }
  | .failed body =>
    { clearInterval s handle with
      mergeProgress := 100
      errorMessage := failureMessage body
      uploadStatus := .error }

/-- The timer `handle` comes due: its callback runs when the timer has not
been cleared, and nothing happens otherwise. -/
def fire (s : AppState) (handle : Nat) : AppState :=
  if handle ∈ s.intervals then tick s handle else s

/-- The state after the timer `handle` has come due `n` times. -/
def tickN (s : AppState) (handle : Nat) : Nat → AppState
  | 0 => s
  | n + 1 => tickN (fire s handle) handle n

/-- A whole run of `handleUpload` (lines 54 to 123) with nothing else
happening in between: the guard of line 55, the synchronous part, `ticks`
firings of the ticker while the request is in flight, and the handling of the
outcome. -/
def handleUpload (s : AppState) (ticks : Nat) (outcome : FetchOutcome) : AppState :=
  if s.files.length = 0 then s
  else
    let started := startUpload s
    settleUpload (tickN started.1 started.2 ticks) started.2 outcome

/-! ## Events and reachable states -/

/-- The events the component reacts to.  `fileSelect value files` is the change
event of the file input, for which the browser has set the value of the input
to `value`; `remove`, `reset` and `uploadClick` are the clicks on the remove,
reset and merge buttons; `timer handle` is the interval `handle` coming due;
`settle handle outcome` is the request of the upload with ticker `handle`
settling. -/
inductive Event where
  | fileSelect (value : String) (selectedFiles : List SelectedFile)
  | remove (index : Nat)
  | reset
  | uploadClick
  | timer (handle : Nat)
  | settle (handle : Nat) (outcome : FetchOutcome)
deriving DecidableEq, Repr

/-- The reaction of the component to one event. -/
def step (s : AppState) : Event → AppState
  | .fileSelect value selectedFiles =>
    handleFileSelect { s with fileInput := s.fileInput.map (fun _ => value) } selectedFiles
  | .remove index => removeFile s index
  | .reset => resetForm s
  | .uploadClick => if s.files.length = 0 then s else (startUpload s).1
  | .timer handle => fire s handle
  | .settle handle outcome => settleUpload s handle outcome

/-- Which events the page lets happen.  The merge button carries
`disabled={uploadStatus === "uploading"}` (line 235), so no upload starts
while one is shown as running.  Every other event is allowed in every state,
which is more than the page allows. -/
def enabled (s : AppState) : Event → Bool
  | .uploadClick => s.uploadStatus != .uploading
  | _ => true

/-- The states the component can be in: the initial state and every state an
enabled event leads to from such a state. -/
inductive Reachable : AppState → Prop where
  | init : Reachable initialState
  | next {s : AppState} (e : Event) : Reachable s → enabled s e = true → Reachable (step s e)

/-- The three limits on the pending files: at most `MAX_FILE_COUNT` files, no
file above the per-file limit, and a total within the aggregate limit. -/
def WithinLimits (xs : List SelectedFile) : Prop :=
  xs.length ≤ 100 ∧ (∀ f ∈ xs, f.size ≤ 100 * 1024 * 1024) ∧
    (xs.map SelectedFile.size).sum ≤ 250 * 1024 * 1024

/-- The fact about the progress value that every step keeps: it is a multiple
of ten between 0 and 100. -/
def ProgressOk (p : Int) : Prop := 0 ≤ p ∧ p ≤ 100 ∧ p % 10 = 0

/-! ## Size formatting -/

/-- The array `sizes` of line 142. -/
def sizes : List String := ["KB", "MB", "GB"]

/-- The expression `Math.round(a / b)` for natural numbers `a` and `b > 0`:
the integer nearest to the quotient, a tie going up. -/
def roundDiv (a b : Nat) : Nat := (2 * a + b) / (2 * b)

/-- The digits JavaScript prints after the integer part of `n / 100`: nothing
for a whole number, otherwise a point and one or two digits, a trailing zero
dropped. -/
def fractionDigits (r : Nat) : String :=
  if r = 0 then ""
  else if r % 10 = 0 then "." ++ toString (r / 10)
  else if r < 10 then ".0" ++ toString r
  else "." ++ toString r

/-- The string JavaScript prints for the number `n / 100`. -/
def showHundredths (n : Nat) : String :=
  toString (n / 100) ++ fractionDigits (n % 100)

/-- The element `sizes[j]` inside a string concatenation: an index outside the
array reads `undefined`, which is printed as that word. -/
def unitAt (j : Nat) : String :=
  match sizes.get? j with
  | some u => u
  | none => "undefined"

/-- The function `formatFileSize` (lines 140 to 147) on a byte count.  The
index `i` is the mathematical value of
`Math.floor(Math.log(bytes) / Math.log(1024))`, and
`Math.round((bytes / Math.pow(1024, i)) * 100)` is the rounding of the exact
quotient (for `bytes < 2 ^ 46` the division by a power of two and the product
with 100 are exact in double precision).  The quotient of the two logarithms
is computed in double precision by the code; its floor is the exact one for
every byte count below `2 ^ 40` and wherever the quotient is not within
rounding distance of a whole number (as at `2 ^ 41`, where it is 4.1).  Just
below a high power of 1024, as at `2 ^ 50 - 1`, the code gets the next index,
and this definition does not follow it there. -/
def formatFileSize (bytes : Nat) : String :=
  if bytes < 1024 then toString bytes ++ " B"
  else
    let i := Nat.log 1024 bytes
    showHundredths (roundDiv (bytes * 100) (1024 ^ i)) ++ " " ++ unitAt (i - 1)

/-! ## Auxiliary facts -/

theorem foldl_size_eq (xs : List SelectedFile) (a : Nat) :
    xs.foldl (fun total file => total + file.size) a = a + (xs.map SelectedFile.size).sum := by
  induction xs generalizing a with
  | nil => simp
  | cons x xs ih => simp [List.foldl_cons, ih, Nat.add_assoc]

theorem totalSize_eq_sum (xs : List SelectedFile) :
    totalSize xs = (xs.map SelectedFile.size).sum := by
  simp [totalSize, foldl_size_eq]

theorem totalSize_append (xs ys : List SelectedFile) :
    totalSize (xs ++ ys) = (xs.map SelectedFile.size).sum + (ys.map SelectedFile.size).sum := by
  simp [totalSize_eq_sum]

theorem filter_eq_nil_of_find_none {α : Type} (p : α → Bool) (xs : List α)
    (h : xs.find? p = none) : xs.filter p = [] := by
  induction xs with
  | nil => rfl
  | cons x xs ih =>
    by_cases hx : p x = true
    · simp [List.find?_cons, hx] at h
    · simp only [Bool.not_eq_true] at hx
      simp only [List.find?_cons, hx] at h
      simp [List.filter_cons, hx, ih h]

theorem filter_head_of_find_some {α : Type} (p : α → Bool) (xs : List α) (a : α)
    (h : xs.find? p = some a) : ∃ rest, xs.filter p = a :: rest := by
  induction xs with
  | nil => simp at h
  | cons x xs ih =>
    by_cases hx : p x = true
    · simp only [List.find?_cons, hx, Option.some.injEq] at h
      subst h
      exact ⟨xs.filter p, by simp [List.filter_cons, hx]⟩
    · simp only [Bool.not_eq_true] at hx
      simp only [List.find?_cons, hx] at h
      obtain ⟨rest, hrest⟩ := ih h
      exact ⟨rest, by simp [List.filter_cons, hx, hrest]⟩

theorem find_none_of_all_small (xs : List SelectedFile)
    (h : ∀ f ∈ xs, f.size ≤ 104857600) :
    xs.find? (fun g => decide (g.size > 104857600)) = none := by
  rw [List.find?_eq_none]
  intro f hf
  have := h f hf
  simp only [decide_eq_true_eq]
  omega

theorem handleFileSelect_count (s : AppState) (incoming : List SelectedFile)
    (h : s.files.length + incoming.length > 100) :
    handleFileSelect s incoming =
      { s with errorMessage := countExceededMessage, uploadStatus := .error } := by
  simp [handleFileSelect, MAX_FILE_COUNT, h]

theorem handleFileSelect_oversized (s : AppState) (incoming : List SelectedFile)
    (f : SelectedFile) (h : s.files.length + incoming.length ≤ 100)
    (hf : incoming.find? (fun g => decide (g.size > 104857600)) = some f) :
    handleFileSelect s incoming =
      { s with errorMessage := fileTooLargeMessage f.name, uploadStatus := .error } := by
  obtain ⟨rest, hrest⟩ := filter_head_of_find_some _ _ _ hf
  have hc : ¬ (s.files.length + incoming.length > 100) := by omega
  simp only [handleFileSelect, MAX_FILE_COUNT, hc, if_false]
  norm_num only at hrest ⊢
  rw [hrest]

theorem handleFileSelect_total (s : AppState) (incoming : List SelectedFile)
    (h : s.files.length + incoming.length ≤ 100)
    (hsmall : ∀ f ∈ incoming, f.size ≤ 104857600)
    (ht : (s.files.map SelectedFile.size).sum + (incoming.map SelectedFile.size).sum
      > 262144000) :
    handleFileSelect s incoming =
      { s with errorMessage := totalSizeMessage, uploadStatus := .error } := by
  have hnil := filter_eq_nil_of_find_none _ _ (find_none_of_all_small incoming hsmall)
  have hc : ¬ (s.files.length + incoming.length > 100) := by omega
  simp only [handleFileSelect, MAX_FILE_COUNT, hc, if_false]
  norm_num only at hnil ⊢
  rw [hnil]
  simp only [totalSize_append]
  rw [if_pos ht]

theorem handleFileSelect_accept (s : AppState) (incoming : List SelectedFile)
    (h : s.files.length + incoming.length ≤ 100)
    (hsmall : ∀ f ∈ incoming, f.size ≤ 104857600)
    (ht : (s.files.map SelectedFile.size).sum + (incoming.map SelectedFile.size).sum
      ≤ 262144000) :
    handleFileSelect s incoming =
      { s with files := s.files ++ incoming, errorMessage := "" } := by
  have hnil := filter_eq_nil_of_find_none _ _ (find_none_of_all_small incoming hsmall)
  have hc : ¬ (s.files.length + incoming.length > 100) := by omega
  simp only [handleFileSelect, MAX_FILE_COUNT, hc, if_false]
  norm_num only at hnil ⊢
  rw [hnil]
  simp only [totalSize_append]
  rw [if_neg (by omega)]

theorem handleFileSelect_files (s : AppState) (incoming : List SelectedFile) :
    (handleFileSelect s incoming).files = s.files ∨
      (s.files.length + incoming.length ≤ 100 ∧ (∀ f ∈ incoming, f.size ≤ 104857600) ∧
        (s.files.map SelectedFile.size).sum + (incoming.map SelectedFile.size).sum ≤ 262144000 ∧
        (handleFileSelect s incoming).files = s.files ++ incoming) := by
  by_cases hc : s.files.length + incoming.length > 100
  · left; rw [handleFileSelect_count s incoming hc]
  · have hc2 : s.files.length + incoming.length ≤ 100 := by omega
    cases hf : incoming.find? (fun g => decide (g.size > 104857600)) with
    | some f => left; rw [handleFileSelect_oversized s incoming f hc2 hf]
    | none =>
      have hsmall : ∀ f ∈ incoming, f.size ≤ 104857600 := by
        intro f hfm
        have := (List.find?_eq_none.mp hf) f hfm
        simp only [decide_eq_true_eq] at this
        omega
      by_cases ht : (s.files.map SelectedFile.size).sum + (incoming.map SelectedFile.size).sum
          > 262144000
      · left; rw [handleFileSelect_total s incoming hc2 hsmall ht]
      · right
        have ht2 : (s.files.map SelectedFile.size).sum + (incoming.map SelectedFile.size).sum
            ≤ 262144000 := by omega
        refine ⟨hc2, hsmall, ht2, ?_⟩
        rw [handleFileSelect_accept s incoming hc2 hsmall ht2]

theorem filterWithIndex_sublist {α : Type} (p : α → Nat → Bool) (xs : List α) (k : Nat) :
    (filterWithIndex p xs k).Sublist xs := by
  induction xs generalizing k with
  | nil => simp [filterWithIndex]
  | cons x xs ih =>
    simp only [filterWithIndex]
    split
    · exact (ih (k + 1)).cons₂ x
    · exact (ih (k + 1)).cons x

theorem filterWithIndex_ne_of_lt {α : Type} (xs : List α) (index k : Nat) (h : index < k) :
    filterWithIndex (fun _ i => i != index) xs k = xs := by
  induction xs generalizing k with
  | nil => simp [filterWithIndex]
  | cons x xs ih =>
    have hne : (k != index) = true := by simp; omega
    simp only [filterWithIndex, hne, if_true]
    rw [ih (k + 1) (by omega)]

theorem filterWithIndex_ne_eq_eraseIdx {α : Type} (xs : List α) (index k : Nat) :
    filterWithIndex (fun _ i => i != index) xs (k) = if index < k then xs
      else xs.eraseIdx (index - k) := by
  induction xs generalizing k with
  | nil => simp [filterWithIndex]
  | cons x xs ih =>
    by_cases hlt : index < k
    · rw [filterWithIndex_ne_of_lt _ _ _ hlt, if_pos hlt]
    · rw [if_neg hlt]
      by_cases heq : k = index
      · subst heq
        simp only [filterWithIndex, bne_self_eq_false, Bool.false_eq_true, if_false,
          Nat.sub_self, List.eraseIdx_cons_zero]
        exact filterWithIndex_ne_of_lt _ _ _ (by omega)
      · have hne : (k != index) = true := by simp; omega
        simp only [filterWithIndex, hne, if_true]
        rw [ih (k + 1), if_neg (by omega)]
        have : index - k = (index - (k + 1)) + 1 := by omega
        rw [this, List.eraseIdx_cons_succ]

theorem removeFile_files (s : AppState) (index : Nat) :
    (removeFile s index).files = s.files.eraseIdx index := by
  simp [removeFile, filterWithIndex_ne_eq_eraseIdx]

theorem WithinLimits.of_sublist {xs ys : List SelectedFile} (h : xs.Sublist ys)
    (hy : WithinLimits ys) : WithinLimits xs := by
  obtain ⟨hlen, hsize, hsum⟩ := hy
  refine ⟨le_trans h.length_le hlen, fun f hf => hsize f (h.subset hf), ?_⟩
  have hm : (xs.map SelectedFile.size).Sublist (ys.map SelectedFile.size) := h.map _
  exact le_trans (hm.sum_le_sum (fun a _ => Nat.zero_le a)) hsum

theorem WithinLimits.nil : WithinLimits [] := by
  simp [WithinLimits]

theorem settleUpload_files (s : AppState) (handle : Nat) (o : FetchOutcome) :
    (settleUpload s handle o).files = s.files ∨ (settleUpload s handle o).files = [] := by
  rcases o with _ | (_ | url) | body <;> simp [settleUpload, clearInterval]

theorem fire_files (s : AppState) (handle : Nat) : (fire s handle).files = s.files := by
  unfold fire tick clearInterval
  split_ifs <;> rfl

theorem step_withinLimits (s : AppState) (e : Event) (h : WithinLimits s.files) :
    WithinLimits (step s e).files := by
  cases e with
  | fileSelect value selectedFiles =>
    simp only [step]
    rcases handleFileSelect_files { s with fileInput := s.fileInput.map (fun _ => value) }
      selectedFiles with h1 | ⟨hc, hsmall, ht, h1⟩
    · rw [h1]; exact h
    · rw [h1]
      refine ⟨by simpa using hc, ?_, by simpa using ht⟩
      intro f hf
      rcases List.mem_append.mp hf with hf | hf
      · exact h.2.1 f hf
      · have := hsmall f hf
        omega
  | remove index =>
    simp only [step, removeFile]
    exact WithinLimits.of_sublist (filterWithIndex_sublist _ _ _) h
  | reset => exact WithinLimits.nil
  | uploadClick =>
    simp only [step, startUpload]
    split <;> exact h
  | timer handle =>
    simp only [step, fire_files]; exact h
  | settle handle outcome =>
    simp only [step]
    rcases settleUpload_files s handle outcome with h1 | h1
    · rw [h1]; exact h
    · rw [h1]; exact WithinLimits.nil

theorem reachable_limits (s : AppState) (h : Reachable s) : WithinLimits s.files := by
  induction h with
  | init => exact WithinLimits.nil
  | next e _ _ ih => exact step_withinLimits _ e ih

theorem readd_perm (xs : List SelectedFile) (i : Nat) (hi : i < xs.length) :
    (xs.eraseIdx i ++ [xs[i]]).Perm xs ∧
      xs.eraseIdx i ++ [xs[i]] = xs.take i ++ xs.drop (i + 1) ++ [xs[i]] := by
  have hsplit : xs = xs.take i ++ xs[i] :: xs.drop (i + 1) := by
    rw [← List.drop_eq_getElem_cons hi, List.take_append_drop]
  have herase : xs.eraseIdx i = xs.take i ++ xs.drop (i + 1) :=
    List.eraseIdx_eq_take_drop_succ xs i
  refine ⟨?_, by rw [herase]⟩
  rw [herase]
  have h1 : (xs.take i ++ xs.drop (i + 1) ++ [xs[i]]).Perm
      (xs.take i ++ xs[i] :: xs.drop (i + 1)) := by
    rw [List.append_assoc]
    exact List.Perm.append_left _ (List.perm_append_singleton _ _)
  exact h1.trans (List.Perm.of_eq hsplit.symm)

theorem fire_frame (s : AppState) (handle : Nat) :
    (fire s handle).files = s.files ∧ (fire s handle).uploadStatus = s.uploadStatus ∧
      (fire s handle).errorMessage = s.errorMessage ∧
      (fire s handle).downloadUrl = s.downloadUrl ∧
      (fire s handle).fileInput = s.fileInput := by
  unfold fire tick clearInterval
  split_ifs <;> exact ⟨rfl, rfl, rfl, rfl, rfl⟩

theorem tickN_frame (s : AppState) (handle : Nat) (n : Nat) :
    (tickN s handle n).files = s.files ∧ (tickN s handle n).uploadStatus = s.uploadStatus ∧
      (tickN s handle n).errorMessage = s.errorMessage ∧
      (tickN s handle n).downloadUrl = s.downloadUrl ∧
      (tickN s handle n).fileInput = s.fileInput := by
  induction n generalizing s with
  | zero => exact ⟨rfl, rfl, rfl, rfl, rfl⟩
  | succ n ih =>
    obtain ⟨h1, h2, h3, h4, h5⟩ := ih (fire s handle)
    obtain ⟨g1, g2, g3, g4, g5⟩ := fire_frame s handle
    simp only [tickN]
    exact ⟨h1.trans g1, h2.trans g2, h3.trans g3, h4.trans g4, h5.trans g5⟩

theorem tickN_active (s : AppState) (handle : Nat) (n : Nat)
    (hmem : handle ∈ s.intervals) (hp : s.mergeProgress + 10 * n ≤ 100) :
    handle ∈ (tickN s handle n).intervals ∧
      (tickN s handle n).mergeProgress = s.mergeProgress + 10 * n := by
  induction n generalizing s with
  | zero => simpa [tickN] using hmem
  | succ n ih =>
    have hlt : ¬ (s.mergeProgress ≥ 100) := by push_cast at hp; omega
    have hfire : fire s handle = { s with mergeProgress := s.mergeProgress + 10 } := by
      simp only [fire, hmem, if_true, tick, hlt, if_false]
    simp only [tickN, hfire]
    have hp2 : s.mergeProgress + 10 + 10 * (n : Int) ≤ 100 := by push_cast at hp; omega
    obtain ⟨h1, h2⟩ := ih { s with mergeProgress := s.mergeProgress + 10 } hmem hp2
    refine ⟨h1, ?_⟩
    rw [h2]
    show s.mergeProgress + 10 + 10 * (n : Int) = s.mergeProgress + 10 * ((n + 1 : Nat) : Int)
    push_cast
    omega

theorem not_mem_clearInterval (s : AppState) (handle : Nat) :
    handle ∉ (clearInterval s handle).intervals := by
  simp [clearInterval]

theorem handleFileSelect_frame (s : AppState) (incoming : List SelectedFile) :
    (handleFileSelect s incoming).mergeProgress = s.mergeProgress ∧
      (handleFileSelect s incoming).intervals = s.intervals := by
  by_cases hc : s.files.length + incoming.length > 100
  · rw [handleFileSelect_count s incoming hc]; exact ⟨rfl, rfl⟩
  · have hc2 : s.files.length + incoming.length ≤ 100 := by omega
    cases hf : incoming.find? (fun g => decide (g.size > 104857600)) with
    | some f => rw [handleFileSelect_oversized s incoming f hc2 hf]; exact ⟨rfl, rfl⟩
    | none =>
      have hsmall : ∀ f ∈ incoming, f.size ≤ 104857600 := by
        intro f hfm
        have := (List.find?_eq_none.mp hf) f hfm
        simp only [decide_eq_true_eq] at this
        omega
      by_cases ht : (s.files.map SelectedFile.size).sum + (incoming.map SelectedFile.size).sum
          > 262144000
      · rw [handleFileSelect_total s incoming hc2 hsmall ht]; exact ⟨rfl, rfl⟩
      · rw [handleFileSelect_accept s incoming hc2 hsmall (by omega)]; exact ⟨rfl, rfl⟩

theorem ProgressOk.zero : ProgressOk 0 := ⟨by decide, by decide, by decide⟩

theorem ProgressOk.full : ProgressOk 100 := ⟨by decide, by decide, by decide⟩

theorem step_progressOk (s : AppState) (e : Event) (h : ProgressOk s.mergeProgress) :
    ProgressOk (step s e).mergeProgress := by
  obtain ⟨h0, h1, h2⟩ := h
  cases e with
  | fileSelect value selectedFiles =>
    simp only [step, (handleFileSelect_frame _ _).1]
    exact ⟨h0, h1, h2⟩
  | remove index => exact ⟨h0, h1, h2⟩
  | reset => exact ⟨h0, h1, h2⟩
  | uploadClick =>
    simp only [step, startUpload]
    split
    · exact ⟨h0, h1, h2⟩
    · exact ProgressOk.zero
  | timer handle =>
    simp only [step, fire, tick, clearInterval]
    split_ifs with hm hp
    · exact ProgressOk.full
    · have hp2 : s.mergeProgress < 100 := by omega
      exact ⟨show 0 ≤ s.mergeProgress + 10 by omega,
        show s.mergeProgress + 10 ≤ 100 by omega,
        show (s.mergeProgress + 10) % 10 = 0 by omega⟩
    · exact ⟨h0, h1, h2⟩
  | settle handle outcome =>
    rcases outcome with _ | (_ | url) | body
    · exact ⟨h0, h1, h2⟩
    · exact ProgressOk.full
    · exact ProgressOk.full
    · exact ProgressOk.full

theorem reachable_progressOk (s : AppState) (h : Reachable s) : ProgressOk s.mergeProgress := by
  induction h with
  | init => exact ProgressOk.zero
  | next e _ _ ih => exact step_progressOk _ e ih

theorem step_progress_mono (s : AppState) (e : Event) (hok : ProgressOk s.mergeProgress)
    (hen : enabled s e = true)
    (h1 : s.uploadStatus = .uploading) (h2 : (step s e).uploadStatus = .uploading) :
    s.mergeProgress ≤ (step s e).mergeProgress := by
  obtain ⟨_, hle, _⟩ := hok
  cases e with
  | fileSelect value selectedFiles =>
    simp only [step, (handleFileSelect_frame _ _).1]
    exact le_refl _
  | remove index => exact le_refl _
  | reset => simp [step, resetForm] at h2
  | uploadClick => simp [enabled, h1] at hen
  | timer handle =>
    simp only [step, fire, tick, clearInterval]
    split_ifs with hm hp
    · exact hle
    · exact show s.mergeProgress ≤ s.mergeProgress + 10 by omega
    · exact le_refl _
  | settle handle outcome =>
    rcases outcome with _ | (_ | url) | body <;> simp [step, settleUpload, clearInterval] at h2

theorem handleUpload_eq (s : AppState) (ticks : Nat) (o : FetchOutcome) (hne : s.files ≠ []) :
    handleUpload s ticks o =
      settleUpload (tickN (startUpload s).1 (startUpload s).2 ticks) (startUpload s).2 o := by
  have hlen : ¬ (s.files.length = 0) := by
    intro h
    exact hne (List.length_eq_zero.mp h)
  simp only [handleUpload, hlen, if_false]

theorem handleUpload_files (s : AppState) (ticks : Nat) (o : FetchOutcome) (hne : s.files ≠ []) :
    (handleUpload s ticks o).files = match o with
      | .ok (some _) => []
      | _ => s.files := by
  rw [handleUpload_eq s ticks o hne]
  have hf := (tickN_frame (startUpload s).1 (startUpload s).2 ticks).1
  rcases o with _ | (_ | url) | body <;> simp only [settleUpload, clearInterval, hf] <;> rfl

theorem roundDiv_nearest (a b : Nat) (hb : 0 < b) :
    2 * (roundDiv a b * b) ≤ 2 * a + b ∧ 2 * a < 2 * (roundDiv a b * b) + b := by
  unfold roundDiv
  have h1 := Nat.div_add_mod (2 * a + b) (2 * b)
  have h2 := Nat.mod_lt (2 * a + b) (show 0 < 2 * b by omega)
  have h3 : 2 * b * ((2 * a + b) / (2 * b)) = 2 * ((2 * a + b) / (2 * b) * b) := by ring
  rw [h3] at h1
  constructor <;> omega

theorem formatFileSize_of_log (bytes k : Nat) (hk : k ≠ 0) (hlo : 1024 ^ k ≤ bytes)
    (hhi : bytes < 1024 ^ (k + 1)) :
    formatFileSize bytes =
      showHundredths (roundDiv (bytes * 100) (1024 ^ k)) ++ " " ++ unitAt (k - 1) := by
  have hlog : Nat.log 1024 bytes = k := (Nat.log_eq_iff (Or.inl hk)).mpr ⟨hlo, hhi⟩
  have hge : ¬ (bytes < 1024) := by
    have h1 : 1024 ^ 1 ≤ 1024 ^ k := Nat.pow_le_pow_right (by norm_num) (by omega)
    have h2 : 1024 ^ 1 = 1024 := by norm_num
    omega
  simp only [formatFileSize, hge, if_false, hlog]

/-! ## File intake: the claims -/

/-- Claim C1: `handleFileSelect` decides by the first applicable rule.  With
more than 100 files in total it sets the count message, which carries the limit
100; otherwise, when some incoming file is larger than 100 MiB, it sets the
message that names the first such file of the batch; otherwise, when the sizes
of the pending and the incoming files add up to more than 250 MiB, it sets the
total-size message; in each of these cases the status becomes `error` and
nothing else changes.  Otherwise the pending set becomes the old one followed
by the batch, the message becomes empty and nothing else changes. -/
theorem handleFileSelect_first_applicable_rule (s : AppState)
    (incoming : List SelectedFile) :
    (s.files.length + incoming.length > 100 →
      handleFileSelect s incoming =
        { s with
          errorMessage := "Maximum file count exceeded. You can upload up to 100 files at once."
          uploadStatus := .error }) ∧
    (s.files.length + incoming.length ≤ 100 →
      ∀ f, incoming.find? (fun g => decide (g.size > 100 * 1024 * 1024)) = some f →
        handleFileSelect s incoming =
          { s with
            errorMessage := "File \x27" ++ f.name ++ "\x27 exceeds the maximum size of 100MB"
            uploadStatus := .error }) ∧
    (s.files.length + incoming.length ≤ 100 →
      (∀ f ∈ incoming, f.size ≤ 100 * 1024 * 1024) →
      (s.files.map SelectedFile.size).sum + (incoming.map SelectedFile.size).sum
          > 250 * 1024 * 1024 →
        handleFileSelect s incoming =
          { s with
            errorMessage := "Total size of all files exceeds the maximum allowed size of 250MB"
            uploadStatus := .error }) ∧
    (s.files.length + incoming.length ≤ 100 →
      (∀ f ∈ incoming, f.size ≤ 100 * 1024 * 1024) →
      (s.files.map SelectedFile.size).sum + (incoming.map SelectedFile.size).sum
          ≤ 250 * 1024 * 1024 →
        handleFileSelect s incoming =
          { s with files := s.files ++ incoming, errorMessage := "" }) := by
  have hmsg : countExceededMessage =
      "Maximum file count exceeded. You can upload up to 100 files at once." := by decide
  refine ⟨?_, ?_, ?_, ?_⟩
  · intro h
    rw [handleFileSelect_count s incoming h, hmsg]
  · intro h f hf
    exact handleFileSelect_oversized s incoming f h (by norm_num only at hf ⊢; exact hf)
  · intro h hsmall ht
    exact handleFileSelect_total s incoming h (by norm_num only at hsmall ⊢; exact hsmall)
      (by norm_num only at ht ⊢; exact ht)
  · intro h hsmall ht
    exact handleFileSelect_accept s incoming h (by norm_num only at hsmall ⊢; exact hsmall)
      (by norm_num only at ht ⊢; exact ht)

/-- Claim C2: a batch that `handleFileSelect` rejects, by the count rule, the
per-file rule or the total rule, changes nothing but the message and the
status: the pending set stays exactly as it was and the status becomes
`error`. -/
theorem handleFileSelect_reject_keeps_files (s : AppState) (incoming : List SelectedFile)
    (h : s.files.length + incoming.length > 100 ∨
      (∃ f ∈ incoming, f.size > 100 * 1024 * 1024) ∨
      (s.files.map SelectedFile.size).sum + (incoming.map SelectedFile.size).sum
        > 250 * 1024 * 1024) :
    (handleFileSelect s incoming).files = s.files ∧
      (handleFileSelect s incoming).uploadStatus = .error ∧
      handleFileSelect s incoming =
        { s with
          errorMessage := (handleFileSelect s incoming).errorMessage
          uploadStatus := .error } := by
  by_cases hc : s.files.length + incoming.length > 100
  · rw [handleFileSelect_count s incoming hc]; simp
  · have hc2 : s.files.length + incoming.length ≤ 100 := by omega
    cases hf : incoming.find? (fun g => decide (g.size > 104857600)) with
    | some f => rw [handleFileSelect_oversized s incoming f hc2 hf]; simp
    | none =>
      have hsmall : ∀ f ∈ incoming, f.size ≤ 104857600 := by
        intro f hfm
        have := (List.find?_eq_none.mp hf) f hfm
        simp only [decide_eq_true_eq] at this
        omega
      have ht : (s.files.map SelectedFile.size).sum + (incoming.map SelectedFile.size).sum
          > 262144000 := by
        rcases h with h | ⟨f, hfm, hbig⟩ | h
        · exact absurd h hc
        · have := hsmall f hfm
          omega
        · omega
      rw [handleFileSelect_total s incoming hc2 hsmall ht]; simp

/-- Witness for claim C2: one file of 150 MiB selected on the empty set, and
101 files selected on the empty set, are rejected with nothing added. -/
theorem handleFileSelect_reject_keeps_files_witness :
    ((handleFileSelect initialState [⟨"big.pdf", 150 * 1024 * 1024⟩]).files = [] ∧
      (handleFileSelect initialState [⟨"big.pdf", 150 * 1024 * 1024⟩]).uploadStatus = .error ∧
      (handleFileSelect initialState [⟨"big.pdf", 150 * 1024 * 1024⟩]).errorMessage =
        "File \x27big.pdf\x27 exceeds the maximum size of 100MB") ∧
    ((handleFileSelect initialState (List.replicate 101 ⟨"a.pdf", 1⟩)).files = [] ∧
      (handleFileSelect initialState (List.replicate 101 ⟨"a.pdf", 1⟩)).uploadStatus = .error ∧
      (handleFileSelect initialState (List.replicate 101 ⟨"a.pdf", 1⟩)).errorMessage =
        "Maximum file count exceeded. You can upload up to 100 files at once.") := by
  have h1 := handleFileSelect_reject_keeps_files initialState [⟨"big.pdf", 150 * 1024 * 1024⟩]
    (Or.inr (Or.inl ⟨⟨"big.pdf", 150 * 1024 * 1024⟩, by simp, by decide⟩))
  have h2 := handleFileSelect_reject_keeps_files initialState (List.replicate 101 ⟨"a.pdf", 1⟩)
    (Or.inl (by decide))
  exact ⟨⟨h1.1, h1.2.1, by decide⟩, ⟨h2.1, h2.2.1, by decide⟩⟩

/-- Claim C3: in every reachable state the pending set has at most 100 files,
no file larger than 100 MiB, and a total size of at most 250 MiB. -/
theorem reachable_withinLimits (s : AppState) (h : Reachable s) :
    s.files.length ≤ 100 ∧ (∀ f ∈ s.files, f.size ≤ 100 * 1024 * 1024) ∧
      (s.files.map SelectedFile.size).sum ≤ 250 * 1024 * 1024 := by
  exact reachable_limits s h

/-- Witness for claim C3: the state after two files were selected and the
first was removed again is reachable, and within the limits. -/
theorem reachable_withinLimits_witness :
    (step (step initialState (.fileSelect "a.pdf" [⟨"a.pdf", 5⟩, ⟨"b.pdf", 7⟩]))
        (.remove 0)).files = [⟨"b.pdf", 7⟩] ∧
      [(⟨"b.pdf", 7⟩ : SelectedFile)].length ≤ 100 := by
  have hr : Reachable (step (step initialState
      (.fileSelect "a.pdf" [⟨"a.pdf", 5⟩, ⟨"b.pdf", 7⟩])) (.remove 0)) :=
    Reachable.next _ (Reachable.next _ Reachable.init rfl) rfl
  have h := reachable_withinLimits _ hr
  have hfiles : (step (step initialState (.fileSelect "a.pdf" [⟨"a.pdf", 5⟩, ⟨"b.pdf", 7⟩]))
      (.remove 0)).files = [⟨"b.pdf", 7⟩] := by decide
  exact ⟨hfiles, hfiles ▸ h.1⟩

/-- Claim C7: in a state whose pending set is within the limits, removing the
file at an index in range and selecting that file again is accepted: the
pending set is the old one with that file moved to the end (the other files
keep their order), a permutation of the old set with the same length and the
same total size, the message is empty and the status is not touched. -/
theorem remove_then_readd (s : AppState) (i : Nat) (hi : i < s.files.length)
    (hlim : WithinLimits s.files) :
    (handleFileSelect (removeFile s i) [s.files[i]]).files
        = s.files.take i ++ s.files.drop (i + 1) ++ [s.files[i]] ∧
      (handleFileSelect (removeFile s i) [s.files[i]]).files.Perm s.files ∧
      (handleFileSelect (removeFile s i) [s.files[i]]).files.length = s.files.length ∧
      totalSize (handleFileSelect (removeFile s i) [s.files[i]]).files = totalSize s.files ∧
      (handleFileSelect (removeFile s i) [s.files[i]]).errorMessage = "" ∧
      (handleFileSelect (removeFile s i) [s.files[i]]).uploadStatus = s.uploadStatus := by
  obtain ⟨hperm, hshape⟩ := readd_perm s.files i hi
  obtain ⟨hlen, hsize, hsum⟩ := hlim
  have hrem : (removeFile s i).files = s.files.eraseIdx i := removeFile_files s i
  have hpl := hperm.length_eq
  have hps := (hperm.map SelectedFile.size).sum_eq
  simp only [List.length_append, List.length_singleton, List.map_append, List.sum_append,
    List.map_cons, List.map_nil, List.sum_cons, List.sum_nil] at hpl hps
  have hacc := handleFileSelect_accept (removeFile s i) [s.files[i]]
    (by rw [hrem]; simp only [List.length_singleton]; omega)
    (by
      intro f hf
      rw [List.mem_singleton] at hf
      have := hsize f (hf ▸ List.getElem_mem hi)
      omega)
    (by rw [hrem]; simp only [List.map_cons, List.map_nil, List.sum_cons, List.sum_nil]; omega)
  have hfiles : (handleFileSelect (removeFile s i) [s.files[i]]).files
      = s.files.eraseIdx i ++ [s.files[i]] := by
    rw [hacc]
    exact congrArg (fun l => l ++ [s.files[i]]) hrem
  have hmsg : (handleFileSelect (removeFile s i) [s.files[i]]).errorMessage = "" := by
    rw [hacc]
  have hstatus : (handleFileSelect (removeFile s i) [s.files[i]]).uploadStatus
      = s.uploadStatus := by
    rw [hacc]; rfl
  rw [hfiles]
  refine ⟨hshape, hperm, hperm.length_eq, ?_, hmsg, hstatus⟩
  rw [totalSize_eq_sum, totalSize_eq_sum]
  exact (hperm.map SelectedFile.size).sum_eq

/-- Witness for claim C7: with three files pending, removing the middle one
and selecting it again moves it to the end. -/
theorem remove_then_readd_witness :
    (handleFileSelect
        (removeFile { initialState with files := [⟨"a", 1⟩, ⟨"b", 2⟩, ⟨"c", 3⟩] } 1)
        [⟨"b", 2⟩]).files = [⟨"a", 1⟩, ⟨"c", 3⟩, ⟨"b", 2⟩] :=
  (remove_then_readd { initialState with files := [⟨"a", 1⟩, ⟨"b", 2⟩, ⟨"c", 3⟩] } 1
    (by decide) (by simp [WithinLimits, initialState])).1

/-! ## Upload: the claims -/

/-- Claim C4: for a non-empty pending set, a run of `handleUpload` empties the
set only on a success response whose body was read.  When the request throws
before a response arrives the status is `error`, the message is the fixed
connectivity message and the set is unchanged; on a failure response the set
is unchanged; on a success response whose body is read the set is empty, the
status is `completed` and the download link is set; whenever the set is empty
after the run, the outcome was such a success response; and a success response
whose body cannot be read leaves the set unchanged as well. -/
theorem handleUpload_clears_only_on_success (s : AppState) (ticks : Nat)
    (hne : s.files ≠ []) :
    ((handleUpload s ticks .threw).uploadStatus = .error ∧
      (handleUpload s ticks .threw).errorMessage =
        "Network error. Please check your connection and try again." ∧
      (handleUpload s ticks .threw).files = s.files) ∧
    (∀ body, (handleUpload s ticks (.failed body)).files = s.files) ∧
    (∀ url, (handleUpload s ticks (.ok (some url))).files = [] ∧
      (handleUpload s ticks (.ok (some url))).uploadStatus = .completed ∧
      (handleUpload s ticks (.ok (some url))).downloadUrl = some url) ∧
    (∀ o, (handleUpload s ticks o).files = [] → ∃ url, o = .ok (some url)) ∧
    (handleUpload s ticks (.ok none)).files = s.files := by
  refine ⟨⟨?_, ?_, ?_⟩, ?_, ?_, ?_, handleUpload_files s ticks (.ok none) hne⟩
  · rw [handleUpload_eq s ticks _ hne]; rfl
  · rw [handleUpload_eq s ticks _ hne]; rfl
  · exact handleUpload_files s ticks .threw hne
  · intro body
    exact handleUpload_files s ticks (.failed body) hne
  · intro url
    refine ⟨handleUpload_files s ticks (.ok (some url)) hne, ?_, ?_⟩
    · rw [handleUpload_eq s ticks _ hne]; rfl
    · rw [handleUpload_eq s ticks _ hne]; rfl
  · intro o ho
    have hf := handleUpload_files s ticks o hne
    rcases o with _ | (_ | url) | body
    · exact absurd (hf.symm.trans ho) hne
    · exact absurd (hf.symm.trans ho) hne
    · exact ⟨url, rfl⟩
    · exact absurd (hf.symm.trans ho) hne

/-- Witness for claim C4: with one file pending, a request that throws leaves
the file in the set and shows the connectivity message. -/
theorem handleUpload_clears_only_on_success_witness :
    (handleUpload { initialState with files := [⟨"a.pdf", 1⟩] } 3 .threw).files
        = [⟨"a.pdf", 1⟩] ∧
      (handleUpload { initialState with files := [⟨"a.pdf", 1⟩] } 3
        (.ok (some "blob:1"))).files = [] :=
  ⟨(handleUpload_clears_only_on_success { initialState with files := [⟨"a.pdf", 1⟩] } 3
      (by simp [initialState])).1.2.2,
    ((handleUpload_clears_only_on_success { initialState with files := [⟨"a.pdf", 1⟩] } 3
      (by simp [initialState])).2.2.1 "blob:1").1⟩

/-- Counterexample to claim C5 as stated: a failure body with another code and
an empty `message` member does not show that message but the fallback. -/
theorem handleUpload_empty_message_shows_fallback :
    (handleUpload { initialState with files := [⟨"a.pdf", 1⟩] } 0
        (.failed (.object (some "MERGE_FAILED") (some "")))).errorMessage
      = "Error occurred during merging" ∧
    (handleUpload { initialState with files := [⟨"a.pdf", 1⟩] } 0
        (.failed (.object (some "MERGE_FAILED") (some "")))).errorMessage ≠ "" := by
  decide

/-- Claim C5, amended: for a non-empty pending set and a failure response the
status becomes `error` and the message is: the fixed message about too many
files when the body is an object whose code is `UPLOAD_SIZE_EXCEEDED` or
`FILE_COUNT_EXCEEDED`, whatever its `message`; for an object with another code
or none, its `message` when that is there and not empty, and the fallback
"Error occurred during merging" when it is missing or empty; and the fallback
"Error occurred during merging. Please try again." when the body is `null` or
cannot be parsed. -/
theorem handleUpload_failure_message (s : AppState) (ticks : Nat) (body : ErrorBody)
    (hne : s.files ≠ []) :
    (handleUpload s ticks (.failed body)).uploadStatus = .error ∧
    (∀ code message, body = .object (some code) message →
      code = "UPLOAD_SIZE_EXCEEDED" ∨ code = "FILE_COUNT_EXCEEDED" →
      (handleUpload s ticks (.failed body)).errorMessage =
        "Too many files uploaded. Please reduce the number of files and try again.") ∧
    (∀ code m, body = .object code (some m) →
      code ≠ some "UPLOAD_SIZE_EXCEEDED" → code ≠ some "FILE_COUNT_EXCEEDED" → m ≠ "" →
      (handleUpload s ticks (.failed body)).errorMessage = m) ∧
    (∀ code message, body = .object code message →
      code ≠ some "UPLOAD_SIZE_EXCEEDED" → code ≠ some "FILE_COUNT_EXCEEDED" →
      message = none ∨ message = some "" →
      (handleUpload s ticks (.failed body)).errorMessage = "Error occurred during merging") ∧
    (body = .null ∨ body = .unparsable →
      (handleUpload s ticks (.failed body)).errorMessage =
        "Error occurred during merging. Please try again.") := by
  have hmsg : (handleUpload s ticks (.failed body)).errorMessage = failureMessage body := by
    rw [handleUpload_eq s ticks _ hne]; rfl
  refine ⟨?_, ?_, ?_, ?_, ?_⟩
  · rw [handleUpload_eq s ticks _ hne]; rfl
  · intro code message hb hcode
    rw [hmsg, hb]
    rcases hcode with h | h <;> subst h <;> simp [failureMessage, tooManyFilesMessage]
  · intro code m hb h1 h2 hm
    rw [hmsg, hb]
    simp [failureMessage, h1, h2, hm]
  · intro code message hb h1 h2 hm
    rw [hmsg, hb]
    rcases hm with h | h <;> subst h <;> simp [failureMessage, h1, h2, mergeErrorMessage]
  · intro hb
    rw [hmsg]
    rcases hb with h | h <;> subst h <;> rfl

/-- Witness for claim C5: the body `\x7b"error":"FILE_COUNT_EXCEEDED"\x7d` of a
413 or 400 response gives status `error` and the fixed message. -/
theorem handleUpload_failure_message_witness :
    (handleUpload { initialState with files := [⟨"a.pdf", 1⟩] } 2
        (.failed (.object (some "FILE_COUNT_EXCEEDED") none))).uploadStatus = .error ∧
      (handleUpload { initialState with files := [⟨"a.pdf", 1⟩] } 2
        (.failed (.object (some "FILE_COUNT_EXCEEDED") none))).errorMessage =
        "Too many files uploaded. Please reduce the number of files and try again." :=
  ⟨(handleUpload_failure_message { initialState with files := [⟨"a.pdf", 1⟩] } 2
      (.object (some "FILE_COUNT_EXCEEDED") none) (by simp [initialState])).1,
    (handleUpload_failure_message { initialState with files := [⟨"a.pdf", 1⟩] } 2
      (.object (some "FILE_COUNT_EXCEEDED") none) (by simp [initialState])).2.1
      "FILE_COUNT_EXCEEDED" none rfl (Or.inr rfl)⟩

/-- Claim C9, the behaviour of the code where the request throws: for a
non-empty pending set and at most ten firings of the ticker before the request
fails, the ticker started by `handleUpload` is still active after the failure
has been handled, and with fewer than ten firings its next firing still raises
the progress value.  On every response (success or failure) the ticker has
been cleared. -/
theorem handleUpload_threw_keeps_ticker (s : AppState) (ticks : Nat)
    (hne : s.files ≠ []) (ht : ticks ≤ 10) :
    (startUpload s).2 ∈ (handleUpload s ticks .threw).intervals ∧
    (ticks < 10 →
      (fire (handleUpload s ticks .threw) (startUpload s).2).mergeProgress
        = (handleUpload s ticks .threw).mergeProgress + 10) ∧
    (∀ url, (startUpload s).2 ∉ (handleUpload s ticks (.ok url)).intervals) ∧
    (∀ body, (startUpload s).2 ∉ (handleUpload s ticks (.failed body)).intervals) := by
  have hact := tickN_active (startUpload s).1 (startUpload s).2 ticks
    (by simp [startUpload])
    (by
      show (0 : Int) + 10 * (ticks : Int) ≤ 100
      omega)
  obtain ⟨hmem, hprog⟩ := hact
  have hprog2 : (tickN (startUpload s).1 (startUpload s).2 ticks).mergeProgress
      = 10 * (ticks : Int) := by
    rw [hprog]
    show (0 : Int) + 10 * (ticks : Int) = 10 * (ticks : Int)
    omega
  refine ⟨?_, ?_, ?_, ?_⟩
  · rw [handleUpload_eq s ticks _ hne]
    exact hmem
  · intro hlt
    rw [handleUpload_eq s ticks _ hne]
    have hm2 : (startUpload s).2 ∈
        (settleUpload (tickN (startUpload s).1 (startUpload s).2 ticks) (startUpload s).2
          .threw).intervals := hmem
    have hp3 : (settleUpload (tickN (startUpload s).1 (startUpload s).2 ticks) (startUpload s).2
          .threw).mergeProgress = 10 * (ticks : Int) := hprog2
    have hlt2 : ¬ ((settleUpload (tickN (startUpload s).1 (startUpload s).2 ticks)
        (startUpload s).2 .threw).mergeProgress ≥ 100) := by
      rw [hp3]; omega
    simp only [fire, hm2, if_true, tick, hlt2, if_false]
  · intro url
    rw [handleUpload_eq s ticks _ hne]
    rcases url with _ | url <;>
      exact not_mem_clearInterval (tickN (startUpload s).1 (startUpload s).2 ticks) _
  · intro body
    rw [handleUpload_eq s ticks _ hne]
    exact not_mem_clearInterval (tickN (startUpload s).1 (startUpload s).2 ticks) _

/-- Witness for claim C9: one file pending, three firings, then the request
throws: timer 0 is still active, and its next firing moves the progress from
30 to 40 although the status is already `error`. -/
theorem handleUpload_threw_keeps_ticker_witness :
    (handleUpload { initialState with files := [⟨"a.pdf", 1⟩] } 3 .threw).intervals = [0] ∧
      (handleUpload { initialState with files := [⟨"a.pdf", 1⟩] } 3 .threw).uploadStatus
        = .error ∧
      (handleUpload { initialState with files := [⟨"a.pdf", 1⟩] } 3 .threw).mergeProgress = 30 ∧
      (fire (handleUpload { initialState with files := [⟨"a.pdf", 1⟩] } 3 .threw) 0).mergeProgress
        = 40 := by
  have h := handleUpload_threw_keeps_ticker { initialState with files := [⟨"a.pdf", 1⟩] } 3
    (by simp [initialState]) (by decide)
  have hp : (handleUpload { initialState with files := [⟨"a.pdf", 1⟩] } 3 .threw).mergeProgress
      = 30 := by decide
  refine ⟨by decide, by decide, hp, ?_⟩
  have h2 := h.2.1 (by decide)
  rw [hp] at h2
  exact h2

/-- Claim C10: the progress value is set to 0 when an upload starts; a firing
of the ticker maps `p` to `p + 10` when `p < 100` and to 100 otherwise; in
every reachable state the value lies between 0 and 100; and a step from a
reachable state that begins and ends with status `uploading` does not lower
it. -/
theorem mergeProgress_bounded_monotone :
    (∀ s : AppState, (startUpload s).1.mergeProgress = 0 ∧
      (s.files ≠ [] → (step s .uploadClick).mergeProgress = 0)) ∧
    (∀ (s : AppState) (handle : Nat), (tick s handle).mergeProgress =
      if s.mergeProgress < 100 then s.mergeProgress + 10 else 100) ∧
    (∀ s : AppState, Reachable s → 0 ≤ s.mergeProgress ∧ s.mergeProgress ≤ 100) ∧
    (∀ (s : AppState) (e : Event), Reachable s → enabled s e = true →
      s.uploadStatus = .uploading → (step s e).uploadStatus = .uploading →
      s.mergeProgress ≤ (step s e).mergeProgress) := by
  refine ⟨?_, ?_, ?_, ?_⟩
  · intro s
    refine ⟨rfl, ?_⟩
    intro hne
    have hlen : ¬ (s.files.length = 0) := fun h => hne (List.length_eq_zero.mp h)
    simp only [step, hlen, if_false]
    rfl
  · intro s handle
    unfold tick clearInterval
    by_cases h : s.mergeProgress ≥ 100
    · have h2 : ¬ (s.mergeProgress < 100) := by omega
      simp only [h, h2, if_true, if_false]
    · have h2 : s.mergeProgress < 100 := by omega
      simp only [h, h2, if_true, if_false]
  · intro s hs
    have h := reachable_progressOk s hs
    exact ⟨h.1, h.2.1⟩
  · intro s e hs hen h1 h2
    exact step_progress_mono s e (reachable_progressOk s hs) hen h1 h2

/-- Witness for claim C10: after a file was selected, the upload started and
the ticker fired twice, the state is reachable and its progress value, 20,
lies between 0 and 100. -/
theorem mergeProgress_bounded_monotone_witness :
    (step (step (step (step initialState (.fileSelect "a.pdf" [⟨"a.pdf", 1⟩])) .uploadClick)
        (.timer 0)) (.timer 0)).mergeProgress = 20 ∧
      (0 : Int) ≤ 20 ∧ (20 : Int) ≤ 100 := by
  have hr : Reachable (step (step (step (step initialState
      (.fileSelect "a.pdf" [⟨"a.pdf", 1⟩])) .uploadClick) (.timer 0)) (.timer 0)) :=
    Reachable.next _ (Reachable.next _ (Reachable.next _
      (Reachable.next _ Reachable.init rfl) rfl) rfl) rfl
  have h := mergeProgress_bounded_monotone.2.2.1 _ hr
  have hp : (step (step (step (step initialState (.fileSelect "a.pdf" [⟨"a.pdf", 1⟩]))
      .uploadClick) (.timer 0)) (.timer 0)).mergeProgress = 20 := by decide
  rw [hp] at h
  exact ⟨hp, h.1, h.2⟩

/-! ## Reset: the claim -/

/-- Counterexample to claim C6 as stated: `resetForm` from the initial state
and `resetForm` from the state after a completed upload give different
states, the progress value being 0 in one and 100 in the other. -/
theorem resetForm_states_differ :
    (resetForm initialState).mergeProgress = 0 ∧
    (resetForm (handleUpload { initialState with files := [⟨"a.pdf", 1⟩] } 0
      (.ok (some "blob:1")))).mergeProgress = 100 ∧
    resetForm initialState ≠
      resetForm (handleUpload { initialState with files := [⟨"a.pdf", 1⟩] } 0
        (.ok (some "blob:1"))) := by
  decide

/-- Claim C6, amended: from every state `resetForm` gives an empty pending
set, status `idle`, no download link and an empty message, and it empties the
file input when that is mounted; the progress value, the running timers and
the handle of the next timer are left as they were.  So the states after
`resetForm` from two states agree on pending set, status, link and message,
and they are equal if and only if the two states had the same progress value,
the same running timers and the same handle of the next timer, and both or
neither had the file input mounted. -/
theorem resetForm_result (s1 s2 : AppState) :
    ((resetForm s1).files = [] ∧ (resetForm s1).uploadStatus = .idle ∧
      (resetForm s1).downloadUrl = none ∧ (resetForm s1).errorMessage = "" ∧
      (resetForm s1).fileInput = s1.fileInput.map (fun _ => "")) ∧
    ((resetForm s1).mergeProgress = s1.mergeProgress ∧
      (resetForm s1).intervals = s1.intervals ∧ (resetForm s1).nextTimer = s1.nextTimer) ∧
    ((resetForm s1).files = (resetForm s2).files ∧
      (resetForm s1).uploadStatus = (resetForm s2).uploadStatus ∧
      (resetForm s1).downloadUrl = (resetForm s2).downloadUrl ∧
      (resetForm s1).errorMessage = (resetForm s2).errorMessage) ∧
    (resetForm s1 = resetForm s2 ↔
      s1.mergeProgress = s2.mergeProgress ∧ s1.intervals = s2.intervals ∧
        s1.nextTimer = s2.nextTimer ∧ s1.fileInput.isSome = s2.fileInput.isSome) := by
  refine ⟨⟨rfl, rfl, rfl, rfl, rfl⟩, ⟨rfl, rfl, rfl⟩, ⟨rfl, rfl, rfl, rfl⟩, ?_⟩
  constructor
  · intro h
    have hp := congrArg AppState.mergeProgress h
    have hi := congrArg AppState.intervals h
    have hn := congrArg AppState.nextTimer h
    have hf := congrArg AppState.fileInput h
    refine ⟨hp, hi, hn, ?_⟩
    have hf2 : s1.fileInput.map (fun _ => "") = s2.fileInput.map (fun _ => "") := hf
    cases h1 : s1.fileInput <;> cases h2 : s2.fileInput <;> simp [h1, h2] at hf2 ⊢
  · rintro ⟨hp, hi, hn, hf⟩
    have hf2 : s1.fileInput.map (fun _ => "") = s2.fileInput.map (fun _ => "") := by
      cases h1 : s1.fileInput <;> cases h2 : s2.fileInput <;> simp [h1, h2] at hf ⊢
    simp only [resetForm, hp, hi, hn, hf2]

/-! ## Size formatting: the claim -/

/-- Claim C8 at 2 TiB, which is `2 ^ 41` bytes: the claim asks for the value
scaled by `1024 ^ 3`, the largest of `1024`, `1024 ^ 2`, `1024 ^ 3` below the
byte count, and the unit GB, which is "2048 GB".  The code takes the index 4,
scales by `1024 ^ 4` and reads `sizes[3]`, which is not there: its text is
"2 undefined", with no unit out of KB, MB, GB. -/
theorem formatFileSize_two_tebibytes :
    1024 ^ 3 ≤ 2199023255552 ∧
    Nat.log 1024 2199023255552 = 4 ∧
    formatFileSize 2199023255552 = "2 undefined" ∧
    showHundredths (roundDiv (2199023255552 * 100) (1024 ^ 3)) ++ " " ++ "GB" = "2048 GB" := by
  have h : ¬ (2199023255552 < 1024) := by norm_num
  have hl : Nat.log 1024 2199023255552 = 4 := by
    rw [Nat.log_eq_iff (by norm_num)]; norm_num
  refine ⟨by norm_num, hl, ?_, by decide⟩
  simp only [formatFileSize, h, if_false, hl]
  decide

/-- What `formatFileSize` does below `1024 ^ 4`, where it meets claim C8: below
1024 the text is the whole number of bytes followed by " B"; from 1024 up to
`1024 ^ 4 - 1`, with `k` the one of 1, 2, 3 such that
`1024 ^ k ≤ bytes < 1024 ^ (k + 1)`, the text is the decimal numeral of
`h / 100` with at most two decimals (the whole part, then nothing when `h` is
a multiple of 100, one digit when it is a multiple of 10, two digits
otherwise), followed by KB, MB or GB for `k` = 1, 2, 3, where `h / 100` is
`bytes / 1024 ^ k` rounded to the nearest hundredth (not truncated: 1030 bytes
give "1.01 KB").  Files of 10 MiB, 20 MiB and 5 MiB total 36700160 bytes,
shown as "35 MB".  In every reachable state the sizes the page formats, those
of the pending files and their total, are below `1024 ^ 4`. -/
theorem formatFileSize_below_tebibyte (bytes : Nat) :
    (bytes < 1024 → formatFileSize bytes = toString bytes ++ " B") ∧
    (∀ k u, (k, u) ∈ [(1, "KB"), (2, "MB"), (3, "GB")] →
      1024 ^ k ≤ bytes → bytes < 1024 ^ (k + 1) →
      ∃ h : Nat,
        formatFileSize bytes =
          toString (h / 100) ++
            (if h % 100 = 0 then ""
              else if h % 10 = 0 then "." ++ toString (h % 100 / 10)
              else if h % 100 < 10 then ".0" ++ toString (h % 100)
              else "." ++ toString (h % 100)) ++ " " ++ u ∧
        2 * (h * 1024 ^ k) ≤ 2 * (bytes * 100) + 1024 ^ k ∧
        2 * (bytes * 100) < 2 * (h * 1024 ^ k) + 1024 ^ k) ∧
    formatFileSize 1030 = "1.01 KB" ∧
    formatFileSize 1126 = "1.1 KB" ∧
    formatFileSize 1075 = "1.05 KB" ∧
    totalSize [⟨"a.pdf", 10 * 1024 * 1024⟩, ⟨"b.pdf", 20 * 1024 * 1024⟩,
      ⟨"c.pdf", 5 * 1024 * 1024⟩] = 36700160 ∧
    formatFileSize (totalSize [⟨"a.pdf", 10 * 1024 * 1024⟩, ⟨"b.pdf", 20 * 1024 * 1024⟩,
      ⟨"c.pdf", 5 * 1024 * 1024⟩]) = "35 MB" ∧
    (∀ s : AppState, Reachable s →
      (∀ f ∈ s.files, f.size < 1024 ^ 4) ∧ totalSize s.files < 1024 ^ 4) := by
  have htotal : totalSize [⟨"a.pdf", 10 * 1024 * 1024⟩, ⟨"b.pdf", 20 * 1024 * 1024⟩,
      ⟨"c.pdf", 5 * 1024 * 1024⟩] = 36700160 := by decide
  have hkb : ∀ n : Nat, 1024 ≤ n → n < 1048576 → formatFileSize n =
      showHundredths (roundDiv (n * 100) (1024 ^ 1)) ++ " " ++ "KB" := by
    intro n h1 h2
    exact formatFileSize_of_log n 1 (by decide) (by norm_num; exact h1) (by norm_num; exact h2)
  refine ⟨?_, ?_, ?_, ?_, ?_, htotal, ?_, ?_⟩
  · intro h
    simp only [formatFileSize, h, if_true]
  · intro k u hku hlo hhi
    have hpos : 0 < 1024 ^ k := Nat.pow_pos (by norm_num)
    obtain ⟨hr1, hr2⟩ := roundDiv_nearest (bytes * 100) (1024 ^ k) hpos
    have hunit : k ≠ 0 ∧ unitAt (k - 1) = u := by
      simp only [List.mem_cons, Prod.mk.injEq, List.mem_singleton, List.not_mem_nil,
        or_false] at hku
      rcases hku with ⟨hk, hu⟩ | ⟨hk, hu⟩ | ⟨hk, hu⟩ <;> subst hk <;> subst hu <;>
        exact ⟨by decide, by decide⟩
    refine ⟨roundDiv (bytes * 100) (1024 ^ k), ?_, hr1, hr2⟩
    rw [formatFileSize_of_log bytes k hunit.1 hlo hhi, hunit.2]
    have hmod : roundDiv (bytes * 100) (1024 ^ k) % 100 % 10
        = roundDiv (bytes * 100) (1024 ^ k) % 10 := by omega
    simp only [showHundredths, fractionDigits, hmod]
  · rw [hkb 1030 (by decide) (by decide)]; decide
  · rw [hkb 1126 (by decide) (by decide)]; decide
  · rw [hkb 1075 (by decide) (by decide)]; decide
  · rw [htotal]
    have h : ¬ (36700160 < 1024) := by norm_num
    have hl : Nat.log 1024 36700160 = 2 := by rw [Nat.log_eq_iff (by norm_num)]; norm_num
    simp only [formatFileSize, h, if_false, hl]
    decide
  · intro s hs
    obtain ⟨_, hsize, hsum⟩ := reachable_limits s hs
    refine ⟨?_, ?_⟩
    · intro f hf
      have := hsize f hf
      norm_num at this ⊢
      omega
    · rw [totalSize_eq_sum]
      norm_num at hsum ⊢
      omega

/-- An instance of `formatFileSize_below_tebibyte`: 1536 bytes lie between
`1024 ^ 1` and `1024 ^ 2`, so they are shown in KB. -/
theorem formatFileSize_below_tebibyte_witness :
    ∃ h : Nat,
      formatFileSize 1536 =
        toString (h / 100) ++
          (if h % 100 = 0 then ""
            else if h % 10 = 0 then "." ++ toString (h % 100 / 10)
            else if h % 100 < 10 then ".0" ++ toString (h % 100)
            else "." ++ toString (h % 100)) ++ " " ++ "KB" ∧
      2 * (h * 1024 ^ 1) ≤ 2 * (1536 * 100) + 1024 ^ 1 ∧
      2 * (1536 * 100) < 2 * (h * 1024 ^ 1) + 1024 ^ 1 :=
  (formatFileSize_below_tebibyte 1536).2.1 1 "KB" (by simp) (by norm_num) (by norm_num)

end GalaxyMerger
